import Mathlib

/-!
Verification of the rex terrain-engine tile tree
(src/src/osgEarthDrivers/engine_rex/TileNode.cpp).

The development shallowly embeds the tile data model (samplers, rendering
passes, render models), the scale-bias inheritance performed by
`TileNode::create`, the data merge performed by `TileNode::merge`, the
propagation in `TileNode::refreshInheritedData`, the quadtree child
management (`createChildren` / `removeSubTiles`), dormancy, load priority,
the cull decision logic, and the dirty/new-layer bookkeeping.

Matrices are `osg::Matrixf` values; they are embedded over `ℚ` (the code
only ever multiplies and compares them, and every matrix the claims touch
has entries in \x7b0, 1/2, 1\x7d, so exact arithmetic is faithful).
Texture handles (`osg::ref_ptr<osg::Texture>`) are embedded as
`Option Nat`: `none` is a null/invalid reference, `some t` a live texture
identified by `t`; pointer comparison is `Option` equality.
-/

/-- A 4x4 matrix over ℚ, row-major as in `osg::Matrixf(a00,a01,...,a33)`:
field `mRC` is row `R`, column `C`. -/
structure Mat4 where
  m00 : ℚ
  m01 : ℚ
  m02 : ℚ
  m03 : ℚ
  m10 : ℚ
  m11 : ℚ
  m12 : ℚ
  m13 : ℚ
  m20 : ℚ
  m21 : ℚ
  m22 : ℚ
  m23 : ℚ
  m30 : ℚ
  m31 : ℚ
  m32 : ℚ
  m33 : ℚ
deriving DecidableEq, Repr

/-- Matrix product, `(a*b)[r][c] = Σ k, a[r][k] * b[k][c]`, as in
`osg::Matrixf::mult`. -/
def Mat4.mul (a b : Mat4) : Mat4 where
  m00 := a.m00 * b.m00 + a.m01 * b.m10 + a.m02 * b.m20 + a.m03 * b.m30
  m01 := a.m00 * b.m01 + a.m01 * b.m11 + a.m02 * b.m21 + a.m03 * b.m31
  m02 := a.m00 * b.m02 + a.m01 * b.m12 + a.m02 * b.m22 + a.m03 * b.m32
  m03 := a.m00 * b.m03 + a.m01 * b.m13 + a.m02 * b.m23 + a.m03 * b.m33
  m10 := a.m10 * b.m00 + a.m11 * b.m10 + a.m12 * b.m20 + a.m13 * b.m30
  m11 := a.m10 * b.m01 + a.m11 * b.m11 + a.m12 * b.m21 + a.m13 * b.m31
  m12 := a.m10 * b.m02 + a.m11 * b.m12 + a.m12 * b.m22 + a.m13 * b.m32
  m13 := a.m10 * b.m03 + a.m11 * b.m13 + a.m12 * b.m23 + a.m13 * b.m33
  m20 := a.m20 * b.m00 + a.m21 * b.m10 + a.m22 * b.m20 + a.m23 * b.m30
  m21 := a.m20 * b.m01 + a.m21 * b.m11 + a.m22 * b.m21 + a.m23 * b.m31
  m22 := a.m20 * b.m02 + a.m21 * b.m12 + a.m22 * b.m22 + a.m23 * b.m32
  m23 := a.m20 * b.m03 + a.m21 * b.m13 + a.m22 * b.m23 + a.m23 * b.m33
  m30 := a.m30 * b.m00 + a.m31 * b.m10 + a.m32 * b.m20 + a.m33 * b.m30
  m31 := a.m30 * b.m01 + a.m31 * b.m11 + a.m32 * b.m21 + a.m33 * b.m31
  m32 := a.m30 * b.m02 + a.m31 * b.m12 + a.m32 * b.m22 + a.m33 * b.m32
  m33 := a.m30 * b.m03 + a.m31 * b.m13 + a.m32 * b.m23 + a.m33 * b.m33

/-- The identity matrix (`osg::Matrixf::identity`). -/
def Mat4.id : Mat4 :=
  ⟨1, 0, 0, 0, 0, 1, 0, 0, 0, 0, 1, 0, 0, 0, 0, 1⟩

/-- `m.preMult other` models `osg::Matrixf::preMult`: `m ← other * m`. -/
def Mat4.preMult (m other : Mat4) : Mat4 :=
  Mat4.mul other m

theorem Mat4.mul_ident (m : Mat4) : Mat4.mul m Mat4.id = m := by
  cases m
  simp [Mat4.mul, Mat4.id]

theorem Mat4.ident_mul (m : Mat4) : Mat4.mul Mat4.id m = m := by
  cases m
  simp [Mat4.mul, Mat4.id]

/-- The four quadrant scale-and-bias matrices, exactly the rows of the
`scaleBias[4]` array in TileNode.cpp (the `osg::Matrixf` constructor lists
entries row-major; row 3 carries the translation). -/
def scaleBias : Fin 4 → Mat4
  | 0 => ⟨1/2, 0, 0, 0, 0, 1/2, 0, 0, 0, 0, 1, 0, 0, 1/2, 0, 1⟩
  | 1 => ⟨1/2, 0, 0, 0, 0, 1/2, 0, 0, 0, 0, 1, 0, 1/2, 1/2, 0, 1⟩
  | 2 => ⟨1/2, 0, 0, 0, 0, 1/2, 0, 0, 0, 0, 1, 0, 0, 0, 0, 1⟩
  | 3 => ⟨1/2, 0, 0, 0, 0, 1/2, 0, 0, 0, 0, 1, 0, 1/2, 0, 0, 1⟩

/-- Written from the spec's words, for comparison with `scaleBias`: a
matrix scaling by (0.5, 0.5) with translation offset (ox, oy), mapping the
unit square to one quarter of it. -/
def quadScaleBias (ox oy : ℚ) : Mat4 :=
  ⟨1/2, 0, 0, 0, 0, 1/2, 0, 0, 0, 0, 1, 0, ox, oy, 0, 1⟩

/-- A `Sampler`: a texture handle plus the texture matrix. Default state
(no texture, identity matrix) is the default-constructed sampler. -/
structure Sampler where
  texture : Option Nat
  matrix : Mat4
deriving DecidableEq, Repr

def Sampler.dfl : Sampler :=
  ⟨none, Mat4.id⟩

/-- Index of the color sampler (`SamplerBinding::COLOR`). -/
def COLOR : Nat := 0

/-- Index of the color-parent sampler (`SamplerBinding::COLOR_PARENT`). -/
def COLOR_PARENT : Nat := 1

/-- Index of the elevation shared sampler (`SamplerBinding::ELEVATION`). -/
def ELEVATION : Nat := 2

/-- Index of the normal-map shared sampler (`SamplerBinding::NORMAL`). -/
def NORMAL : Nat := 3

/-- First index of the layer-specific shared samplers
(`SamplerBinding::SHARED`). -/
def SHARED : Nat := 4

/-- One render binding: whether the binding is active and, for shared
bindings, the UID of the source layer it is bound to. -/
structure SamplerBindingInfo where
  active : Bool
  srcUID : Option Nat
deriving DecidableEq, Repr

/-- The engine's render bindings, indexed by sampler index. -/
abbrev RenderBindings := List SamplerBindingInfo

def bindingActive (bindings : RenderBindings) (i : Nat) : Bool :=
  (bindings.getD i ⟨false, none⟩).active

def bindingSrcUID (bindings : RenderBindings) (i : Nat) : Option Nat :=
  (bindings.getD i ⟨false, none⟩).srcUID

/-- A `RenderingPass`: one color layer's contribution, identified by the
layer UID, with one sampler per binding. -/
structure RenderingPass where
  sourceUID : Nat
  samplers : List Sampler
deriving DecidableEq, Repr

/-- A `TileRenderModel`: the ordered rendering passes plus the shared
(elevation, normal, ...) samplers. -/
structure RenderModel where
  passes : List RenderingPass
  sharedSamplers : List Sampler
deriving DecidableEq, Repr

/-- First pass of a pass list whose source UID matches
(`TileRenderModel::getPass` on the pass vector). -/
def findPass (uid : Nat) : List RenderingPass → Option RenderingPass
  | [] => none
  | p :: ps => if p.sourceUID = uid then some p else findPass uid ps

/-- `TileRenderModel::getPass(uid)`: first pass whose source UID matches. -/
def RenderModel.getPass (rm : RenderModel) (uid : Nat) : Option RenderingPass :=
  findPass uid rm.passes

/-- Scale/bias one sampler's matrix into quadrant `q`
(`samplers[s]._matrix.preMult(scaleBias[quadrant])`). -/
def inheritSampler (q : Fin 4) (s : Sampler) : Sampler :=
  { s with matrix := s.matrix.preMult (scaleBias q) }

/-- The per-pass body of the parent-copy loop in `TileNode::create`: copy
the parent's pass, scale/bias every sampler matrix for quadrant `q`, then,
if the color-parent binding is active, overwrite the color-parent sampler
with the (already scale/biased) color sampler. -/
def createInheritPass (bindings : RenderBindings) (q : Fin 4) (pp : RenderingPass) : RenderingPass :=
  let samplers := pp.samplers.map (inheritSampler q)
  let samplers :=
    if bindingActive bindings COLOR_PARENT = true then
      samplers.set COLOR_PARENT (samplers.getD COLOR Sampler.dfl)
    else
      samplers
  { pp with samplers := samplers }

/-- The render-model initialization in `TileNode::create` when `parent` is
non-null: copy every parent pass through `createInheritPass`, and copy the
parent's shared samplers with each matrix scale/biased for quadrant `q`. -/
def createInheritModel (bindings : RenderBindings) (q : Fin 4) (pm : RenderModel) : RenderModel :=
  { passes := pm.passes.map (createInheritPass bindings q)
    sharedSamplers := pm.sharedSamplers.map (inheritSampler q) }

theorem getD_eq_getElem {α : Type} (l : List α) (d : α) (i : Nat) (h : i < l.length) :
    l.getD i d = l[i] := by
  simp [List.getD_eq_getElem?_getD, List.getElem?_eq_getElem h]

theorem getD_set_self {α : Type} (l : List α) (i : Nat) (a d : α) (h : i < l.length) :
    (l.set i a).getD i d = a := by
  simp [List.getD_eq_getElem?_getD, List.getElem?_set_self, h]

theorem getD_set_ne {α : Type} (l : List α) (i j : Nat) (a d : α) (h : i ≠ j) :
    (l.set j a).getD i d = l.getD i d := by
  simp [List.getD_eq_getElem?_getD, List.getElem?_set_ne h.symm]
theorem getD_map {α β : Type} (f : α → β) (l : List α) (i : Nat) (d : β) (d2 : α)
    (h : i < l.length) :
    (l.map f).getD i d = f (l.getD i d2) := by
  rw [getD_eq_getElem (l.map f) d i (by simpa using h), getD_eq_getElem l d2 i h,
    List.getElem_map]

/-- C1, counterexample: with the color-parent binding active, `create`
overwrites the child's color-parent sampler with the (scale-biased) color
sampler, so its matrix is not the parent's color-parent matrix
pre-multiplied by the quadrant scale-bias matrix. Parent pass: color
sampler has the identity matrix, color-parent sampler has matrix
`scaleBias 0`. -/
theorem create_scaleBias_cex :
    (((createInheritModel [⟨true, none⟩, ⟨true, none⟩] 0
          ⟨[⟨7, [⟨some 1, Mat4.id⟩, ⟨some 1, scaleBias 0⟩]⟩], []⟩).passes.getD 0
            ⟨0, []⟩).samplers.getD COLOR_PARENT Sampler.dfl).matrix
      ≠ Mat4.mul (scaleBias 0)
          ((((⟨[⟨7, [⟨some 1, Mat4.id⟩, ⟨some 1, scaleBias 0⟩]⟩], []⟩ :
              RenderModel).passes.getD 0 ⟨0, []⟩).samplers.getD COLOR_PARENT
                Sampler.dfl).matrix) := by
  simp [createInheritModel, createInheritPass, inheritSampler, bindingActive,
    Mat4.preMult, Mat4.mul, Mat4.id, scaleBias, COLOR, COLOR_PARENT, Sampler.dfl,
    Mat4.mk.injEq]

/-- C1 (amended): for a child created under a non-null parent, every
sampler of every copied pass — except the color-parent sampler when the
color-parent binding is active, which instead receives the scale-biased
color sampler — ends with matrix `scaleBias[quadrant] * parentMatrix`;
every copied shared sampler ends with `scaleBias[quadrant] * parentMatrix`
unconditionally; when all parent matrices are the identity every resulting
matrix (color-parent included) is exactly `scaleBias[quadrant]`; and the
four fixed matrices scale by (0.5, 0.5) with offsets (0, 0.5), (0.5, 0.5),
(0, 0), (0.5, 0) for quadrants 0..3. -/
theorem create_scaleBias_inherit (bindings : RenderBindings) (q : Fin 4) (pm : RenderModel)
    (p i : Nat) (hp : p < pm.passes.length)
    (hi : i < (pm.passes.getD p ⟨0, []⟩).samplers.length)
    (hcp : i ≠ COLOR_PARENT ∨ bindingActive bindings COLOR_PARENT = false) :
    ((((createInheritModel bindings q pm).passes.getD p ⟨0, []⟩).samplers.getD i
        Sampler.dfl).matrix
      = Mat4.mul (scaleBias q)
          (((pm.passes.getD p ⟨0, []⟩).samplers.getD i Sampler.dfl).matrix))
    ∧ (∀ j : Nat, j < pm.sharedSamplers.length →
        ((createInheritModel bindings q pm).sharedSamplers.getD j Sampler.dfl).matrix
          = Mat4.mul (scaleBias q) ((pm.sharedSamplers.getD j Sampler.dfl).matrix))
    ∧ ((∀ pp ∈ pm.passes, ∀ s ∈ pp.samplers, s.matrix = Mat4.id) →
        ∀ cp ∈ (createInheritModel bindings q pm).passes, ∀ s ∈ cp.samplers,
          s.matrix = scaleBias q)
    ∧ ((∀ s ∈ pm.sharedSamplers, s.matrix = Mat4.id) →
        ∀ s ∈ (createInheritModel bindings q pm).sharedSamplers, s.matrix = scaleBias q)
    ∧ (scaleBias 0 = quadScaleBias 0 (1/2) ∧ scaleBias 1 = quadScaleBias (1/2) (1/2)
        ∧ scaleBias 2 = quadScaleBias 0 0 ∧ scaleBias 3 = quadScaleBias (1/2) 0) := by
  refine ⟨?_, ?_, ?_, ?_, rfl, rfl, rfl, rfl⟩
  · simp only [createInheritModel]
    rw [getD_map (createInheritPass bindings q) pm.passes p ⟨0, []⟩ ⟨0, []⟩ hp]
    unfold createInheritPass
    simp only
    cases hact : bindingActive bindings COLOR_PARENT with
    | false =>
      rw [if_neg (by simp [hact])]
      rw [getD_map (inheritSampler q) _ i Sampler.dfl Sampler.dfl hi]
      rfl
    | true =>
      rcases hcp with hne | hoff
      · rw [if_pos (by simp [hact])]
        rw [getD_set_ne _ i COLOR_PARENT _ Sampler.dfl hne]
        rw [getD_map (inheritSampler q) _ i Sampler.dfl Sampler.dfl hi]
        rfl
      · rw [hoff] at hact
        exact absurd hact (by simp)
  · intro j hj
    simp only [createInheritModel]
    rw [getD_map (inheritSampler q) pm.sharedSamplers j Sampler.dfl Sampler.dfl hj]
    rfl
  · intro hid cp hcp2 s hs
    simp only [createInheritModel, List.mem_map] at hcp2
    obtain ⟨pp, hpp, rfl⟩ := hcp2
    unfold createInheritPass at hs
    simp only at hs
    cases hact : bindingActive bindings COLOR_PARENT with
    | false =>
      rw [if_neg (by simp [hact])] at hs
      simp only [List.mem_map] at hs
      obtain ⟨s0, hs0, rfl⟩ := hs
      simp [inheritSampler, Mat4.preMult, hid pp hpp s0 hs0, Mat4.mul_ident]
    | true =>
      rw [if_pos (by simp [hact])] at hs
      rcases List.mem_or_eq_of_mem_set hs with hmem | heq
      · simp only [List.mem_map] at hmem
        obtain ⟨s0, hs0, rfl⟩ := hmem
        simp [inheritSampler, Mat4.preMult, hid pp hpp s0 hs0, Mat4.mul_ident]
      · rcases hsam : pp.samplers with _ | ⟨x, xs⟩
        · rw [hsam] at hs
          simp at hs
        · subst heq
          rw [hsam]
          rw [getD_map (inheritSampler q) (x :: xs) COLOR Sampler.dfl Sampler.dfl
            (by simp [COLOR])]
          have hx : x ∈ pp.samplers := by
            rw [hsam]
            exact List.mem_cons_self x xs
          simp [inheritSampler, Mat4.preMult, COLOR, hid pp hpp x hx, Mat4.mul_ident]
  · intro hid s hs
    simp only [createInheritModel, List.mem_map] at hs
    obtain ⟨s0, hs0, rfl⟩ := hs
    simp [inheritSampler, Mat4.preMult, hid s0 hs0, Mat4.mul_ident]

/-- C1, witness: concrete evaluation of the amended theorem; with the
color-parent binding inactive, quadrant 1 and an identity parent matrix,
the child's color sampler matrix is exactly `scaleBias 1`. -/
theorem create_scaleBias_inherit_witness :
    (((createInheritModel [⟨true, none⟩, ⟨false, none⟩] 1
          ⟨[⟨7, [⟨some 1, Mat4.id⟩, ⟨none, Mat4.id⟩]⟩], [⟨some 2, Mat4.id⟩]⟩).passes.getD 0
            ⟨0, []⟩).samplers.getD 0 Sampler.dfl).matrix = scaleBias 1 := by
  have h := (create_scaleBias_inherit [⟨true, none⟩, ⟨false, none⟩] 1
    ⟨[⟨7, [⟨some 1, Mat4.id⟩, ⟨none, Mat4.id⟩]⟩], [⟨some 2, Mat4.id⟩]⟩ 0 0
    (by decide) (by decide) (Or.inr (by decide))).1
  rw [h]
  simp [Mat4.mul, Mat4.id, scaleBias]

/-- A tile key: level of detail, column, row.
Modelled from the spec: a TileKey is the immutable tuple
(LOD ≥ 0, tile column, tile row); the TileKey implementation itself is not
part of the embedded sources. -/
structure TileKey where
  lod : Nat
  x : Nat
  y : Nat
deriving DecidableEq, Repr

/-- Modelled from the spec: the four child keys of a key are
(level+1, 2·col+\x7b0,1\x7d, 2·row+\x7b0,1\x7d), in quadrant order 0..3 =
NW, NE, SW, SE (quadrant 1 and 3 shift the column, quadrant 2 and 3 shift
the row). -/
def TileKey.createChildKey (k : TileKey) (q : Fin 4) : TileKey :=
  ⟨k.lod + 1,
    2 * k.x + (if q = 1 ∨ q = 3 then 1 else 0),
    2 * k.y + (if q = 2 ∨ q = 3 then 1 else 0)⟩

/-- Modelled from the spec: which quadrant of its parent a key occupies,
recovered from the parities of its column and row
(`TileKey::getQuadrant`, not part of the embedded sources). -/
def TileKey.quadrant (k : TileKey) : Fin 4 :=
  ⟨k.x % 2 + 2 * (k.y % 2), by omega⟩

/-- `TileRenderModel::addPass` applied to a pass inherited wholesale in
`refreshInheritedData`: the parent pass is copied and every sampler matrix
is scale/biased into quadrant `q`. -/
def inheritedPass (q : Fin 4) (pp : RenderingPass) : RenderingPass :=
  { pp with samplers := pp.samplers.map (inheritSampler q) }

/-- Fold a step function over sampler indices `0..n-1`, threading the
sampler list and accumulating the number of changes — the shape of the
`for (s = 0; s < samplers.size(); ++s)` loops in `refreshInheritedData`. -/
def threadCount {α : Type} (f : α → Nat → α × Nat) (a : α) (n : Nat) : α × Nat :=
  (List.range n).foldl (fun acc s => ((f acc.1 s).1, acc.2 + (f acc.1 s).2)) (a, 0)

/-- One iteration of the per-pass sampler loop of
`TileNode::refreshInheritedData` at sampler index `s`: the color-parent
sampler (when its binding is active) is re-derived from the parent's
color sampler; every other sampler is re-inherited from the parent (with
scale/bias) when it has no valid texture or a non-identity matrix.
Returns the updated sampler list and 1 if a change was counted, else 0. -/
def refreshSamplerAt (bindings : RenderBindings) (q : Fin 4) (parentPass : RenderingPass)
    (samplers : List Sampler) (s : Nat) : List Sampler × Nat :=
  if s = COLOR_PARENT ∧ bindingActive bindings COLOR_PARENT = true then
    if (samplers.getD s Sampler.dfl).texture
          ≠ (parentPass.samplers.getD COLOR Sampler.dfl).texture
        ∨ (samplers.getD s Sampler.dfl).matrix
          ≠ (parentPass.samplers.getD COLOR Sampler.dfl).matrix.preMult (scaleBias q) then
      if (parentPass.samplers.getD COLOR Sampler.dfl).texture.isSome = true then
        (samplers.set s ⟨(parentPass.samplers.getD COLOR Sampler.dfl).texture,
          (parentPass.samplers.getD COLOR Sampler.dfl).matrix.preMult (scaleBias q)⟩, 1)
      else
        (samplers.set s (samplers.getD COLOR Sampler.dfl), 1)
    else
      (samplers, 0)
  else
    if (samplers.getD s Sampler.dfl).texture.isSome = false
        ∨ (samplers.getD s Sampler.dfl).matrix ≠ Mat4.id then
      (samplers.set s ⟨(parentPass.samplers.getD s Sampler.dfl).texture,
        (parentPass.samplers.getD s Sampler.dfl).matrix.preMult (scaleBias q)⟩, 1)
    else
      (samplers, 0)

/-- The sampler loop of `refreshInheritedData` over one existing pass. -/
def refreshPassSamplers (bindings : RenderBindings) (q : Fin 4) (parentPass : RenderingPass)
    (samplers : List Sampler) : List Sampler × Nat :=
  threadCount (refreshSamplerAt bindings q parentPass) samplers samplers.length

/-- Processing of one parent pass in `refreshInheritedData`: find this
node's pass with the parent pass's source UID (`getPass`) and run the
sampler loop on it; if the pass is missing, append the parent pass
wholesale with scale/biased samplers and count one change. -/
def refreshPassList (bindings : RenderBindings) (q : Fin 4) (pp : RenderingPass) :
    List RenderingPass → List RenderingPass × Nat
  | [] => ([inheritedPass q pp], 1)
  | p :: ps =>
    if p.sourceUID = pp.sourceUID then
      ({ p with samplers := (refreshPassSamplers bindings q pp p.samplers).1 } :: ps,
        (refreshPassSamplers bindings q pp p.samplers).2)
    else
      (p :: (refreshPassList bindings q pp ps).1, (refreshPassList bindings q pp ps).2)

/-- The loop of `refreshInheritedData` over all parent passes, threading
this node's pass list and accumulating the change count. -/
def refreshPasses (bindings : RenderBindings) (q : Fin 4)
    (parentPasses myPasses : List RenderingPass) : List RenderingPass × Nat :=
  parentPasses.foldl
    (fun acc pp =>
      ((refreshPassList bindings q pp acc.1).1, acc.2 + (refreshPassList bindings q pp acc.1).2))
    (myPasses, 0)

/-- One iteration of the shared-sampler loop of `refreshInheritedData`:
re-inherit (with scale/bias) any shared sampler that has no valid texture
or a non-identity matrix. -/
def refreshSharedAt (q : Fin 4) (parentShared : List Sampler) (mine : List Sampler)
    (s : Nat) : List Sampler × Nat :=
  if (mine.getD s Sampler.dfl).texture.isSome = false
      ∨ (mine.getD s Sampler.dfl).matrix ≠ Mat4.id then
    (mine.set s ⟨(parentShared.getD s Sampler.dfl).texture,
      (parentShared.getD s Sampler.dfl).matrix.preMult (scaleBias q)⟩, 1)
  else
    (mine, 0)

/-- The shared-sampler loop of `refreshInheritedData`. -/
def refreshShared (q : Fin 4) (parentShared mine : List Sampler) : List Sampler × Nat :=
  threadCount (refreshSharedAt q parentShared) mine mine.length

/-- The render-model part of `TileNode::refreshInheritedData`: run the
pass loop and the shared-sampler loop, returning the updated model and the
total number of changes counted. -/
def refreshRM (bindings : RenderBindings) (q : Fin 4) (prm rm : RenderModel) :
    RenderModel × Nat :=
  (⟨(refreshPasses bindings q prm.passes rm.passes).1,
      (refreshShared q prm.sharedSamplers rm.sharedSamplers).1⟩,
    (refreshPasses bindings q prm.passes rm.passes).2
      + (refreshShared q prm.sharedSamplers rm.sharedSamplers).2)

/-- A tile subtree: a leaf (children not ready) or a node with its four
ready children in quadrant order. Each tile carries its key and its
render model. -/
inductive Tile where
  | leaf : TileKey → RenderModel → Tile
  | node : TileKey → RenderModel → Tile → Tile → Tile → Tile → Tile
deriving DecidableEq, Repr

/-- `TileNode::refreshInheritedData(parent, bindings)` over a subtree:
update this tile's render model from the parent's model `prm`; recurse
into the four children (against this tile's updated model) exactly when
children are ready and the change count is positive. -/
def Tile.refresh (bindings : RenderBindings) (prm : RenderModel) : Tile → Tile
  | .leaf k rm => .leaf k (refreshRM bindings k.quadrant prm rm).1
  | .node k rm c0 c1 c2 c3 =>
    if 0 < (refreshRM bindings k.quadrant prm rm).2 then
      .node k (refreshRM bindings k.quadrant prm rm).1
        (c0.refresh bindings (refreshRM bindings k.quadrant prm rm).1)
        (c1.refresh bindings (refreshRM bindings k.quadrant prm rm).1)
        (c2.refresh bindings (refreshRM bindings k.quadrant prm rm).1)
        (c3.refresh bindings (refreshRM bindings k.quadrant prm rm).1)
    else
      .node k (refreshRM bindings k.quadrant prm rm).1 c0 c1 c2 c3

/-- C3: `refreshInheritedData` recurses into the four children exactly
when the children are ready (the tile is a `node`) and the change count of
this call is positive; with zero changes the children are left untouched,
and a leaf (children not ready) never recurses. -/
theorem refresh_recursion_spec (bindings : RenderBindings) (prm : RenderModel) (k : TileKey)
    (rm : RenderModel) (c0 c1 c2 c3 : Tile) :
    (0 < (refreshRM bindings k.quadrant prm rm).2 →
      Tile.refresh bindings prm (.node k rm c0 c1 c2 c3)
        = .node k (refreshRM bindings k.quadrant prm rm).1
            (Tile.refresh bindings (refreshRM bindings k.quadrant prm rm).1 c0)
            (Tile.refresh bindings (refreshRM bindings k.quadrant prm rm).1 c1)
            (Tile.refresh bindings (refreshRM bindings k.quadrant prm rm).1 c2)
            (Tile.refresh bindings (refreshRM bindings k.quadrant prm rm).1 c3))
    ∧ ((refreshRM bindings k.quadrant prm rm).2 = 0 →
      Tile.refresh bindings prm (.node k rm c0 c1 c2 c3)
        = .node k (refreshRM bindings k.quadrant prm rm).1 c0 c1 c2 c3)
    ∧ (Tile.refresh bindings prm (.leaf k rm)
        = .leaf k (refreshRM bindings k.quadrant prm rm).1) := by
  refine ⟨?_, ?_, rfl⟩
  · intro h
    simp [Tile.refresh, h]
  · intro h
    simp [Tile.refresh, h]

/-- C3, witness: with an empty parent model and an empty own model, the
change count is zero, so the children of the node are left untouched. -/
theorem refresh_recursion_spec_witness :
    Tile.refresh [] ⟨[], []⟩
        (.node ⟨1, 0, 0⟩ ⟨[], []⟩ (.leaf ⟨2, 0, 0⟩ ⟨[], []⟩) (.leaf ⟨2, 1, 0⟩ ⟨[], []⟩)
          (.leaf ⟨2, 0, 1⟩ ⟨[], []⟩) (.leaf ⟨2, 1, 1⟩ ⟨[], []⟩))
      = .node ⟨1, 0, 0⟩ ⟨[], []⟩ (.leaf ⟨2, 0, 0⟩ ⟨[], []⟩) (.leaf ⟨2, 1, 0⟩ ⟨[], []⟩)
          (.leaf ⟨2, 0, 1⟩ ⟨[], []⟩) (.leaf ⟨2, 1, 1⟩ ⟨[], []⟩) := by
  have h := (refresh_recursion_spec [] ⟨[], []⟩ ⟨1, 0, 0⟩ ⟨[], []⟩
    (.leaf ⟨2, 0, 0⟩ ⟨[], []⟩) (.leaf ⟨2, 1, 0⟩ ⟨[], []⟩)
    (.leaf ⟨2, 0, 1⟩ ⟨[], []⟩) (.leaf ⟨2, 1, 1⟩ ⟨[], []⟩)).2.1 rfl
  rw [h]
  rfl

theorem threadCount_fixed_aux {α : Type} (f : α → Nat → α × Nat) (a : α) (n c : Nat)
    (h : ∀ s, s < n → f a s = (a, 0)) :
    (List.range n).foldl (fun acc s => ((f acc.1 s).1, acc.2 + (f acc.1 s).2)) (a, c)
      = (a, c) := by
  induction n generalizing c with
  | zero => simp
  | succ n ih =>
    rw [List.range_succ, List.foldl_append]
    rw [ih c (fun s hs => h s (Nat.lt_succ_of_lt hs))]
    simp [h n (Nat.lt_succ_self n)]

theorem threadCount_fixed {α : Type} (f : α → Nat → α × Nat) (a : α) (n : Nat)
    (h : ∀ s, s < n → f a s = (a, 0)) :
    threadCount f a n = (a, 0) :=
  threadCount_fixed_aux f a n 0 h

theorem refreshSamplerAt_fixed (bindings : RenderBindings) (q : Fin 4)
    (parentPass : RenderingPass) (samplers : List Sampler) (s : Nat)
    (hcp : bindingActive bindings COLOR_PARENT = false)
    (hall : ∀ x ∈ samplers, x.texture.isSome = true ∧ x.matrix = Mat4.id)
    (hs : s < samplers.length) :
    refreshSamplerAt bindings q parentPass samplers s = (samplers, 0) := by
  have hmem : samplers.getD s Sampler.dfl ∈ samplers := by
    rw [getD_eq_getElem samplers Sampler.dfl s hs]
    exact List.getElem_mem hs
  obtain ⟨ht, hm⟩ := hall _ hmem
  unfold refreshSamplerAt
  rw [if_neg (by simp [hcp])]
  have hne : ¬((samplers.getD s Sampler.dfl).texture.isSome = false
      ∨ (samplers.getD s Sampler.dfl).matrix ≠ Mat4.id) := by
    rintro (h1 | h2)
    · rw [ht] at h1
      exact absurd h1 (by decide)
    · exact h2 hm
  rw [if_neg hne]

theorem refreshPassSamplers_fixed (bindings : RenderBindings) (q : Fin 4)
    (parentPass : RenderingPass) (samplers : List Sampler)
    (hcp : bindingActive bindings COLOR_PARENT = false)
    (hall : ∀ x ∈ samplers, x.texture.isSome = true ∧ x.matrix = Mat4.id) :
    refreshPassSamplers bindings q parentPass samplers = (samplers, 0) :=
  threadCount_fixed _ _ _
    (fun s hs => refreshSamplerAt_fixed bindings q parentPass samplers s hcp hall hs)

theorem refreshPassList_fixed (bindings : RenderBindings) (q : Fin 4) (pp : RenderingPass)
    (l : List RenderingPass)
    (hcp : bindingActive bindings COLOR_PARENT = false)
    (hall : ∀ p ∈ l, ∀ x ∈ p.samplers, x.texture.isSome = true ∧ x.matrix = Mat4.id)
    (hmatch : ∃ p ∈ l, p.sourceUID = pp.sourceUID) :
    refreshPassList bindings q pp l = (l, 0) := by
  induction l with
  | nil =>
    obtain ⟨p, hp, _⟩ := hmatch
    simp at hp
  | cons p ps ih =>
    by_cases hid : p.sourceUID = pp.sourceUID
    · unfold refreshPassList
      rw [if_pos hid]
      rw [refreshPassSamplers_fixed bindings q pp p.samplers hcp
        (hall p (List.mem_cons_self p ps))]
    · unfold refreshPassList
      rw [if_neg hid]
      have hmatch2 : ∃ p2 ∈ ps, p2.sourceUID = pp.sourceUID := by
        obtain ⟨p2, hp2, he⟩ := hmatch
        rcases List.mem_cons.mp hp2 with rfl | hin
        · exact absurd he hid
        · exact ⟨p2, hin, he⟩
      rw [ih (fun p2 hp2 => hall p2 (List.mem_cons_of_mem p hp2)) hmatch2]

theorem refreshPasses_fixed_aux (bindings : RenderBindings) (q : Fin 4)
    (parentPasses myPasses : List RenderingPass) (c : Nat)
    (hcp : bindingActive bindings COLOR_PARENT = false)
    (hall : ∀ p ∈ myPasses, ∀ x ∈ p.samplers, x.texture.isSome = true ∧ x.matrix = Mat4.id)
    (hmatch : ∀ pp ∈ parentPasses, ∃ p ∈ myPasses, p.sourceUID = pp.sourceUID) :
    parentPasses.foldl
        (fun acc pp =>
          ((refreshPassList bindings q pp acc.1).1,
            acc.2 + (refreshPassList bindings q pp acc.1).2))
        (myPasses, c)
      = (myPasses, c) := by
  induction parentPasses generalizing c with
  | nil => simp
  | cons pp rest ih =>
    rw [List.foldl_cons]
    have hstep := refreshPassList_fixed bindings q pp myPasses hcp hall
      (hmatch pp (List.mem_cons_self pp rest))
    simp only [hstep]
    exact ih c (fun pp2 hpp2 => hmatch pp2 (List.mem_cons_of_mem pp hpp2))

theorem refreshPasses_fixed (bindings : RenderBindings) (q : Fin 4)
    (parentPasses myPasses : List RenderingPass)
    (hcp : bindingActive bindings COLOR_PARENT = false)
    (hall : ∀ p ∈ myPasses, ∀ x ∈ p.samplers, x.texture.isSome = true ∧ x.matrix = Mat4.id)
    (hmatch : ∀ pp ∈ parentPasses, ∃ p ∈ myPasses, p.sourceUID = pp.sourceUID) :
    refreshPasses bindings q parentPasses myPasses = (myPasses, 0) :=
  refreshPasses_fixed_aux bindings q parentPasses myPasses 0 hcp hall hmatch

theorem refreshSharedAt_fixed (q : Fin 4) (parentShared mine : List Sampler) (s : Nat)
    (hall : ∀ x ∈ mine, x.texture.isSome = true ∧ x.matrix = Mat4.id)
    (hs : s < mine.length) :
    refreshSharedAt q parentShared mine s = (mine, 0) := by
  have hmem : mine.getD s Sampler.dfl ∈ mine := by
    rw [getD_eq_getElem mine Sampler.dfl s hs]
    exact List.getElem_mem hs
  obtain ⟨ht, hm⟩ := hall _ hmem
  unfold refreshSharedAt
  have hne : ¬((mine.getD s Sampler.dfl).texture.isSome = false
      ∨ (mine.getD s Sampler.dfl).matrix ≠ Mat4.id) := by
    rintro (h1 | h2)
    · rw [ht] at h1
      exact absurd h1 (by decide)
    · exact h2 hm
  rw [if_neg hne]

theorem refreshShared_fixed (q : Fin 4) (parentShared mine : List Sampler)
    (hall : ∀ x ∈ mine, x.texture.isSome = true ∧ x.matrix = Mat4.id) :
    refreshShared q parentShared mine = (mine, 0) :=
  threadCount_fixed _ _ _
    (fun s hs => refreshSharedAt_fixed q parentShared mine s hall hs)

/-- C4, counterexample: a node whose every pass sampler holds a valid
texture with an identity matrix is still changed by
`refreshInheritedData` when the color-parent binding is active: the
color-parent branch compares against the parent's color sampler and
rewrites the sampler, counting a change, so the node is not a fixed point
for arbitrary parent data. -/
theorem refresh_converged_cex :
    (∀ p ∈ (⟨[⟨5, [⟨some 1, Mat4.id⟩, ⟨some 1, Mat4.id⟩]⟩], []⟩ : RenderModel).passes,
        ∀ x ∈ p.samplers, x.texture.isSome = true ∧ x.matrix = Mat4.id)
    ∧ (refreshRM [⟨true, none⟩, ⟨true, none⟩] 0
          ⟨[⟨5, [⟨some 2, Mat4.id⟩, ⟨some 2, Mat4.id⟩]⟩], []⟩
          ⟨[⟨5, [⟨some 1, Mat4.id⟩, ⟨some 1, Mat4.id⟩]⟩], []⟩).2 ≠ 0 := by
  constructor
  · intro p hp x hx
    simp only [List.mem_singleton] at hp
    subst hp
    rcases List.mem_cons.mp hx with rfl | hx2
    · exact ⟨rfl, rfl⟩
    · rcases List.mem_singleton.mp hx2 with rfl
      exact ⟨rfl, rfl⟩
  · simp [refreshRM, refreshPasses, refreshPassList, refreshPassSamplers, threadCount,
      refreshSamplerAt, refreshShared, List.range_succ, bindingActive, COLOR, COLOR_PARENT,
      Sampler.dfl, Mat4.preMult, Mat4.mul, Mat4.id, scaleBias, Mat4.mk.injEq]

/-- C4 (amended): a node whose pass samplers and shared samplers all hold
a valid texture with an identity matrix is a fixed point of
`refreshInheritedData` — zero changes, model unchanged, no recursion into
its children — provided the color-parent binding is inactive and every
parent pass has a matching pass (same source UID) in the node. -/
theorem refresh_converged_fixed_point (bindings : RenderBindings) (prm : RenderModel)
    (k : TileKey) (rm : RenderModel) (c0 c1 c2 c3 : Tile)
    (hcp : bindingActive bindings COLOR_PARENT = false)
    (hmatch : ∀ pp ∈ prm.passes, ∃ p ∈ rm.passes, p.sourceUID = pp.sourceUID)
    (hpass : ∀ p ∈ rm.passes, ∀ x ∈ p.samplers, x.texture.isSome = true ∧ x.matrix = Mat4.id)
    (hshared : ∀ x ∈ rm.sharedSamplers, x.texture.isSome = true ∧ x.matrix = Mat4.id) :
    refreshRM bindings k.quadrant prm rm = (rm, 0)
    ∧ Tile.refresh bindings prm (.node k rm c0 c1 c2 c3) = .node k rm c0 c1 c2 c3 := by
  have h1 := refreshPasses_fixed bindings k.quadrant prm.passes rm.passes hcp hpass hmatch
  have h2 := refreshShared_fixed k.quadrant prm.sharedSamplers rm.sharedSamplers hshared
  have hr : refreshRM bindings k.quadrant prm rm = (rm, 0) := by
    unfold refreshRM
    rw [h1, h2]
    rfl
  exact ⟨hr, by simp [Tile.refresh, hr]⟩

/-- C4, witness: concrete two-level instance with the color-parent binding
inactive; the leaf with authoritative (identity-matrix) data is untouched
by a refresh against new parent data. -/
theorem refresh_converged_fixed_point_witness :
    Tile.refresh [⟨true, none⟩, ⟨false, none⟩]
        ⟨[⟨5, [⟨some 2, Mat4.id⟩, ⟨some 2, Mat4.id⟩]⟩], []⟩
        (.node ⟨1, 0, 0⟩ ⟨[⟨5, [⟨some 1, Mat4.id⟩, ⟨some 1, Mat4.id⟩]⟩], []⟩
          (.leaf ⟨2, 0, 0⟩ ⟨[], []⟩) (.leaf ⟨2, 1, 0⟩ ⟨[], []⟩)
          (.leaf ⟨2, 0, 1⟩ ⟨[], []⟩) (.leaf ⟨2, 1, 1⟩ ⟨[], []⟩))
      = .node ⟨1, 0, 0⟩ ⟨[⟨5, [⟨some 1, Mat4.id⟩, ⟨some 1, Mat4.id⟩]⟩], []⟩
          (.leaf ⟨2, 0, 0⟩ ⟨[], []⟩) (.leaf ⟨2, 1, 0⟩ ⟨[], []⟩)
          (.leaf ⟨2, 0, 1⟩ ⟨[], []⟩) (.leaf ⟨2, 1, 1⟩ ⟨[], []⟩) :=
  (refresh_converged_fixed_point [⟨true, none⟩, ⟨false, none⟩]
    ⟨[⟨5, [⟨some 2, Mat4.id⟩, ⟨some 2, Mat4.id⟩]⟩], []⟩ ⟨1, 0, 0⟩
    ⟨[⟨5, [⟨some 1, Mat4.id⟩, ⟨some 1, Mat4.id⟩]⟩], []⟩
    (.leaf ⟨2, 0, 0⟩ ⟨[], []⟩) (.leaf ⟨2, 1, 0⟩ ⟨[], []⟩)
    (.leaf ⟨2, 0, 1⟩ ⟨[], []⟩) (.leaf ⟨2, 1, 1⟩ ⟨[], []⟩)
    rfl
    (by intro pp hpp
        simp only [List.mem_singleton] at hpp
        subst hpp
        exact ⟨_, List.mem_singleton.mpr rfl, rfl⟩)
    (by intro p hp x hx
        simp only [List.mem_singleton] at hp
        subst hp
        rcases List.mem_cons.mp hx with rfl | hx2
        · exact ⟨rfl, rfl⟩
        · rcases List.mem_singleton.mp hx2 with rfl
          exact ⟨rfl, rfl⟩)
    (by intro x hx
        simp at hx)).2

/-- One entry of `model->colorLayers()` as consumed by `TileNode::merge`:
either an image layer (carrying an optional texture and a texture matrix)
or a non-image color layer (a tagged variant standing for the
`dynamic_cast<TerrainTileImageLayerModel*>` probe; `hasLayer` models the
`model->getLayer()` null check on the non-image branch). -/
inductive ColorLayerModel where
  | image : Nat → Option Nat → Mat4 → ColorLayerModel
  | other : Nat → Bool → ColorLayerModel
deriving DecidableEq, Repr

/-- The UID of the owning layer of a color-layer model. -/
def ColorLayerModel.uid : ColorLayerModel → Nat
  | .image u _ _ => u
  | .other u _ => u

/-- The `TerrainTileModel` data consumed by `TileNode::merge`: color
layers, the elevation texture (present exactly when the elevation model is
valid and carries a texture), the normal texture likewise, and the shared
image layers as (layer UID, optional texture) pairs. -/
structure TerrainTileModel where
  colorLayers : List ColorLayerModel
  elevation : Option Nat
  normal : Option Nat
  sharedLayers : List (Nat × Option Nat)
deriving DecidableEq, Repr

/-- Modelled from the spec: `TileRenderModel::addPass` followed by
`RenderingPass::setLayer` yields a pass owning the layer's UID with one
default sampler (no texture, identity matrix) per render binding; the
TileRenderModel header is not among the embedded sources. -/
def newPass (bindings : RenderBindings) (uid : Nat) : RenderingPass :=
  ⟨uid, List.replicate bindings.length Sampler.dfl⟩

/-- The pass built by `TileNode::merge` for an image layer that has no
pass yet: a fresh pass; if the color-parent binding is active its
color-parent sampler is initialized to (texture, identity); the color
sampler is then written with the model's texture and matrix. -/
def freshImagePass (bindings : RenderBindings) (uid t : Nat) (mat : Mat4) : RenderingPass :=
  ⟨uid,
    (if bindingActive bindings COLOR_PARENT = true then
      (newPass bindings uid).samplers.set COLOR_PARENT ⟨some t, Mat4.id⟩
    else
      (newPass bindings uid).samplers).set COLOR ⟨some t, mat⟩⟩

/-- `TileNode::merge` handling of one image color layer bearing a texture:
find the first pass with the layer's UID and write its color sampler with
the model's texture and matrix, or append the freshly initialized pass
when none exists (`getPass` / `addPass`). -/
def mergeImagePass (bindings : RenderBindings) (uid t : Nat) (mat : Mat4) :
    List RenderingPass → List RenderingPass
  | [] => [freshImagePass bindings uid t mat]
  | p :: ps =>
    if p.sourceUID = uid then
      { p with samplers := p.samplers.set COLOR ⟨some t, mat⟩ } :: ps
    else
      p :: mergeImagePass bindings uid t mat ps

/-- `TileNode::merge` handling of one non-image color layer: create the
pass if it is missing; no sampler is written. -/
def mergeOtherPass (bindings : RenderBindings) (uid : Nat) :
    List RenderingPass → List RenderingPass
  | [] => [newPass bindings uid]
  | p :: ps =>
    if p.sourceUID = uid then
      p :: ps
    else
      p :: mergeOtherPass bindings uid ps

/-- The color-layer loop body of `TileNode::merge`. An image layer without
a texture is skipped; a non-image entry whose layer pointer is null is
skipped. -/
def mergeColorLayer (bindings : RenderBindings) (rm : RenderModel) :
    ColorLayerModel → RenderModel
  | .image uid tex mat =>
    match tex with
    | none => rm
    | some t => { rm with passes := mergeImagePass bindings uid t mat rm.passes }
  | .other uid hasLayer =>
    if hasLayer = true then
      { rm with passes := mergeOtherPass bindings uid rm.passes }
    else
      rm

/-- Write one shared sampler slot of the render model. -/
def setShared (rm : RenderModel) (i : Nat) (v : Sampler) : RenderModel :=
  { rm with sharedSamplers := rm.sharedSamplers.set i v }

/-- The shared-binding lookup in `TileNode::merge`: the first binding
index at or after `SHARED` that is active and bound to the given layer
UID. -/
def findSharedBindingIdx (bindings : RenderBindings) (uid : Nat) : Option Nat :=
  match (bindings.drop SHARED).findIdx? (fun b => b.active && b.srcUID == some uid) with
  | some j => some (SHARED + j)
  | none => none

/-- The shared-layer loop body of `TileNode::merge`: when the layer has a
texture and an active shared binding bound to its UID exists, write that
shared sampler with (texture, identity). -/
def mergeSharedLayer (bindings : RenderBindings) (rm : RenderModel)
    (l : Nat × Option Nat) : RenderModel :=
  match l.2 with
  | none => rm
  | some t =>
    match findSharedBindingIdx bindings l.1 with
    | some i => setShared rm i ⟨some t, Mat4.id⟩
    | none => rm

/-- The color-layer loop of `TileNode::merge`, run only when the color
binding is active. -/
def mergeColorLayers (bindings : RenderBindings) (ls : List ColorLayerModel)
    (rm : RenderModel) : RenderModel :=
  if bindingActive bindings COLOR = true then
    ls.foldl (mergeColorLayer bindings) rm
  else
    rm

/-- The elevation step of `TileNode::merge`: when the elevation binding is
active and the model carries an elevation texture, write the elevation
shared sampler with (texture, identity). -/
def mergeElevation (bindings : RenderBindings) (elev : Option Nat)
    (rm : RenderModel) : RenderModel :=
  match elev with
  | some t =>
    if bindingActive bindings ELEVATION = true then
      setShared rm ELEVATION ⟨some t, Mat4.id⟩
    else
      rm
  | none => rm

/-- The normal-map step of `TileNode::merge`: when the normal binding is
active and the model carries a normal texture, write the normal shared
sampler with (texture, identity). -/
def mergeNormal (bindings : RenderBindings) (nrm : Option Nat)
    (rm : RenderModel) : RenderModel :=
  match nrm with
  | some t =>
    if bindingActive bindings NORMAL = true then
      setShared rm NORMAL ⟨some t, Mat4.id⟩
    else
      rm
  | none => rm

/-- `TileNode::merge(model, bindings)` on the render model, in source
order: the color-layer loop, the elevation write, the normal write, then
the shared-layer loop. -/
def mergeModel (bindings : RenderBindings) (model : TerrainTileModel)
    (rm : RenderModel) : RenderModel :=
  model.sharedLayers.foldl (mergeSharedLayer bindings)
    (mergeNormal bindings model.normal
      (mergeElevation bindings model.elevation
        (mergeColorLayers bindings model.colorLayers rm)))

theorem findPass_mergeImagePass_self (bindings : RenderBindings) (uid t : Nat) (mat : Mat4)
    (l : List RenderingPass) (hb : 0 < bindings.length)
    (hlen : ∀ p ∈ l, 0 < p.samplers.length) :
    ∃ pass, findPass uid (mergeImagePass bindings uid t mat l) = some pass
      ∧ pass.sourceUID = uid
      ∧ pass.samplers.getD COLOR Sampler.dfl = ⟨some t, mat⟩ := by
  induction l with
  | nil =>
    refine ⟨freshImagePass bindings uid t mat, ?_, rfl, ?_⟩
    · simp [mergeImagePass, findPass, freshImagePass]
    · unfold freshImagePass
      simp only
      apply getD_set_self
      split
      · simpa [newPass, COLOR] using hb
      · simpa [newPass, COLOR] using hb
  | cons p ps ih =>
    simp only [mergeImagePass]
    by_cases hid : p.sourceUID = uid
    · rw [if_pos hid]
      refine ⟨{ p with samplers := p.samplers.set COLOR ⟨some t, mat⟩ }, ?_, hid, ?_⟩
      · simp [findPass, hid]
      · simp only
        exact getD_set_self _ _ _ _ (hlen p (List.mem_cons_self p ps))
    · rw [if_neg hid]
      obtain ⟨pass, hf, h1, h2⟩ := ih (fun x hx => hlen x (List.mem_cons_of_mem p hx))
      refine ⟨pass, ?_, h1, h2⟩
      simp only [findPass, hid, if_neg, ite_false]
      exact hf

theorem findPass_mergeImagePass_other (bindings : RenderBindings) (uid t : Nat) (mat : Mat4)
    (l : List RenderingPass) (u : Nat) (hu : u ≠ uid) :
    findPass u (mergeImagePass bindings uid t mat l) = findPass u l := by
  induction l with
  | nil =>
    simp [mergeImagePass, findPass, freshImagePass, Ne.symm hu]
  | cons p ps ih =>
    simp only [mergeImagePass]
    by_cases hid : p.sourceUID = uid
    · rw [if_pos hid]
      have hpu : ¬(p.sourceUID = u) := by
        rw [hid]
        exact Ne.symm hu
      simp only [findPass, hpu, ite_false]
    · rw [if_neg hid]
      by_cases hpu : p.sourceUID = u
      · simp only [findPass, hpu, ite_true]
      · simp only [findPass, hpu, ite_false]
        exact ih

theorem findPass_mergeOtherPass_self (bindings : RenderBindings) (uid : Nat)
    (l : List RenderingPass) :
    ∃ pass, findPass uid (mergeOtherPass bindings uid l) = some pass
      ∧ pass.sourceUID = uid := by
  induction l with
  | nil =>
    exact ⟨newPass bindings uid, by simp [mergeOtherPass, findPass, newPass], rfl⟩
  | cons p ps ih =>
    simp only [mergeOtherPass]
    by_cases hid : p.sourceUID = uid
    · rw [if_pos hid]
      exact ⟨p, by simp [findPass, hid], hid⟩
    · rw [if_neg hid]
      obtain ⟨pass, hf, h1⟩ := ih
      refine ⟨pass, ?_, h1⟩
      simp only [findPass, hid, ite_false]
      exact hf

theorem findPass_mergeOtherPass_other (bindings : RenderBindings) (uid : Nat)
    (l : List RenderingPass) (u : Nat) (hu : u ≠ uid) :
    findPass u (mergeOtherPass bindings uid l) = findPass u l := by
  induction l with
  | nil =>
    simp [mergeOtherPass, findPass, newPass, Ne.symm hu]
  | cons p ps ih =>
    simp only [mergeOtherPass]
    by_cases hid : p.sourceUID = uid
    · rw [if_pos hid]
    · rw [if_neg hid]
      by_cases hpu : p.sourceUID = u
      · simp only [findPass, hpu, ite_true]
      · simp only [findPass, hpu, ite_false]
        exact ih

theorem mergeImagePass_len (bindings : RenderBindings) (uid t : Nat) (mat : Mat4)
    (l : List RenderingPass) (hb : 0 < bindings.length)
    (hlen : ∀ p ∈ l, 0 < p.samplers.length) :
    ∀ p ∈ mergeImagePass bindings uid t mat l, 0 < p.samplers.length := by
  induction l with
  | nil =>
    intro p hp
    simp only [mergeImagePass, List.mem_singleton] at hp
    subst hp
    unfold freshImagePass
    simp only [List.length_set]
    split
    · simpa [newPass] using hb
    · simpa [newPass] using hb
  | cons p ps ih =>
    intro x hx
    simp only [mergeImagePass] at hx
    by_cases hid : p.sourceUID = uid
    · rw [if_pos hid] at hx
      rcases List.mem_cons.mp hx with rfl | hx2
      · simpa using hlen p (List.mem_cons_self p ps)
      · exact hlen x (List.mem_cons_of_mem p hx2)
    · rw [if_neg hid] at hx
      rcases List.mem_cons.mp hx with rfl | hx2
      · exact hlen x (List.mem_cons_self x ps)
      · exact ih (fun y hy => hlen y (List.mem_cons_of_mem p hy)) x hx2

theorem mergeOtherPass_len (bindings : RenderBindings) (uid : Nat)
    (l : List RenderingPass) (hb : 0 < bindings.length)
    (hlen : ∀ p ∈ l, 0 < p.samplers.length) :
    ∀ p ∈ mergeOtherPass bindings uid l, 0 < p.samplers.length := by
  induction l with
  | nil =>
    intro p hp
    simp only [mergeOtherPass, List.mem_singleton] at hp
    subst hp
    simpa [newPass] using hb
  | cons p ps ih =>
    intro x hx
    simp only [mergeOtherPass] at hx
    by_cases hid : p.sourceUID = uid
    · rw [if_pos hid] at hx
      exact hlen x hx
    · rw [if_neg hid] at hx
      rcases List.mem_cons.mp hx with rfl | hx2
      · exact hlen x (List.mem_cons_self x ps)
      · exact ih (fun y hy => hlen y (List.mem_cons_of_mem p hy)) x hx2

theorem mergeColorLayer_frame (bindings : RenderBindings) (rm : RenderModel)
    (l : ColorLayerModel) (u : Nat) (hu : u ≠ l.uid) :
    findPass u (mergeColorLayer bindings rm l).passes = findPass u rm.passes := by
  cases l with
  | image uid tex mat =>
    cases tex with
    | none => rfl
    | some t =>
      simp only [mergeColorLayer]
      exact findPass_mergeImagePass_other bindings uid t mat rm.passes u
        (by simpa [ColorLayerModel.uid] using hu)
  | other uid hasLayer =>
    by_cases hl : hasLayer = true
    · simp only [mergeColorLayer]
      rw [if_pos hl]
      exact findPass_mergeOtherPass_other bindings uid rm.passes u
        (by simpa [ColorLayerModel.uid] using hu)
    · simp only [mergeColorLayer]
      rw [if_neg hl]

theorem mergeColorLayer_shared (bindings : RenderBindings) (rm : RenderModel)
    (l : ColorLayerModel) :
    (mergeColorLayer bindings rm l).sharedSamplers = rm.sharedSamplers := by
  cases l with
  | image uid tex mat =>
    cases tex with
    | none => rfl
    | some t => rfl
  | other uid hasLayer =>
    by_cases hl : hasLayer = true
    · simp only [mergeColorLayer]
      rw [if_pos hl]
    · simp only [mergeColorLayer]
      rw [if_neg hl]

theorem mergeColorLayer_len (bindings : RenderBindings) (rm : RenderModel)
    (l : ColorLayerModel) (hb : 0 < bindings.length)
    (hlen : ∀ p ∈ rm.passes, 0 < p.samplers.length) :
    ∀ p ∈ (mergeColorLayer bindings rm l).passes, 0 < p.samplers.length := by
  cases l with
  | image uid tex mat =>
    cases tex with
    | none => exact hlen
    | some t => exact mergeImagePass_len bindings uid t mat rm.passes hb hlen
  | other uid hasLayer =>
    by_cases hl : hasLayer = true
    · simp only [mergeColorLayer]
      rw [if_pos hl]
      exact mergeOtherPass_len bindings uid rm.passes hb hlen
    · simp only [mergeColorLayer]
      rw [if_neg hl]
      exact hlen

theorem foldColor_frame (bindings : RenderBindings) (ls : List ColorLayerModel)
    (rm : RenderModel) (u : Nat) (hu : ∀ l ∈ ls, u ≠ l.uid) :
    findPass u (ls.foldl (mergeColorLayer bindings) rm).passes = findPass u rm.passes := by
  induction ls generalizing rm with
  | nil => rfl
  | cons l0 rest ih =>
    rw [List.foldl_cons]
    rw [ih (mergeColorLayer bindings rm l0) (fun l hl => hu l (List.mem_cons_of_mem l0 hl))]
    exact mergeColorLayer_frame bindings rm l0 u (hu l0 (List.mem_cons_self l0 rest))

theorem foldColor_shared (bindings : RenderBindings) (ls : List ColorLayerModel)
    (rm : RenderModel) :
    (ls.foldl (mergeColorLayer bindings) rm).sharedSamplers = rm.sharedSamplers := by
  induction ls generalizing rm with
  | nil => rfl
  | cons l0 rest ih =>
    rw [List.foldl_cons, ih, mergeColorLayer_shared]

theorem foldColor_len (bindings : RenderBindings) (ls : List ColorLayerModel)
    (rm : RenderModel) (hb : 0 < bindings.length)
    (hlen : ∀ p ∈ rm.passes, 0 < p.samplers.length) :
    ∀ p ∈ (ls.foldl (mergeColorLayer bindings) rm).passes, 0 < p.samplers.length := by
  induction ls generalizing rm with
  | nil => exact hlen
  | cons l0 rest ih =>
    rw [List.foldl_cons]
    exact ih _ (mergeColorLayer_len bindings rm l0 hb hlen)

theorem foldColor_spec (bindings : RenderBindings) (ls : List ColorLayerModel)
    (rm : RenderModel) (hb : 0 < bindings.length)
    (hlen : ∀ p ∈ rm.passes, 0 < p.samplers.length)
    (hdist : ls.Pairwise (fun a b => a.uid ≠ b.uid)) :
    (∀ uid t mat, ColorLayerModel.image uid (some t) mat ∈ ls →
      ∃ pass, findPass uid (ls.foldl (mergeColorLayer bindings) rm).passes = some pass
        ∧ pass.sourceUID = uid ∧ pass.samplers.getD COLOR Sampler.dfl = ⟨some t, mat⟩)
    ∧ (∀ uid, ColorLayerModel.other uid true ∈ ls →
      ∃ pass, findPass uid (ls.foldl (mergeColorLayer bindings) rm).passes = some pass
        ∧ pass.sourceUID = uid) := by
  induction ls generalizing rm with
  | nil =>
    constructor
    · intro uid t mat hmem
      simp at hmem
    · intro uid hmem
      simp at hmem
  | cons l0 rest ih =>
    rw [List.pairwise_cons] at hdist
    obtain ⟨hsep, hdist2⟩ := hdist
    have hlen1 := mergeColorLayer_len bindings rm l0 hb hlen
    have ihr := ih (mergeColorLayer bindings rm l0) hlen1 hdist2
    constructor
    · intro uid t mat hmem
      rw [List.foldl_cons]
      rcases List.mem_cons.mp hmem with heq | hmem2
      · have huid : ∀ l ∈ rest, uid ≠ l.uid := by
          intro l hl
          have h2 := hsep l hl
          rw [← heq] at h2
          simpa [ColorLayerModel.uid] using h2
        rw [foldColor_frame bindings rest (mergeColorLayer bindings rm l0) uid huid]
        rw [← heq]
        simp only [mergeColorLayer]
        exact findPass_mergeImagePass_self bindings uid t mat rm.passes hb hlen
      · exact ihr.1 uid t mat hmem2
    · intro uid hmem
      rw [List.foldl_cons]
      rcases List.mem_cons.mp hmem with heq | hmem2
      · have huid : ∀ l ∈ rest, uid ≠ l.uid := by
          intro l hl
          have h2 := hsep l hl
          rw [← heq] at h2
          simpa [ColorLayerModel.uid] using h2
        rw [foldColor_frame bindings rest (mergeColorLayer bindings rm l0) uid huid]
        rw [← heq]
        simp only [mergeColorLayer]
        rw [if_pos trivial]
        exact findPass_mergeOtherPass_self bindings uid rm.passes
      · exact ihr.2 uid hmem2

theorem findSharedBindingIdx_ge (bindings : RenderBindings) (u j : Nat)
    (h : findSharedBindingIdx bindings u = some j) : SHARED ≤ j := by
  unfold findSharedBindingIdx at h
  cases h2 : (bindings.drop SHARED).findIdx? (fun b => b.active && b.srcUID == some u) with
  | none =>
    rw [h2] at h
    cases h
  | some j2 =>
    rw [h2] at h
    injection h with h3
    exact h3 ▸ Nat.le_add_right SHARED j2

theorem mergeSharedLayer_getD_lt (bindings : RenderBindings) (rm : RenderModel)
    (l : Nat × Option Nat) (i : Nat) (hi : i < SHARED) :
    (mergeSharedLayer bindings rm l).sharedSamplers.getD i Sampler.dfl
      = rm.sharedSamplers.getD i Sampler.dfl := by
  obtain ⟨u, tex⟩ := l
  cases tex with
  | none => rfl
  | some t =>
    simp only [mergeSharedLayer]
    cases h2 : findSharedBindingIdx bindings u with
    | none => rfl
    | some j =>
      have hj := findSharedBindingIdx_ge bindings u j h2
      simp only [setShared]
      exact getD_set_ne _ i j _ Sampler.dfl (by omega)

theorem mergeSharedLayer_passes (bindings : RenderBindings) (rm : RenderModel)
    (l : Nat × Option Nat) :
    (mergeSharedLayer bindings rm l).passes = rm.passes := by
  obtain ⟨u, tex⟩ := l
  cases tex with
  | none => rfl
  | some t =>
    simp only [mergeSharedLayer]
    cases h2 : findSharedBindingIdx bindings u with
    | none => rfl
    | some j => rfl

theorem foldShared_getD_lt (bindings : RenderBindings) (ls : List (Nat × Option Nat))
    (rm : RenderModel) (i : Nat) (hi : i < SHARED) :
    (ls.foldl (mergeSharedLayer bindings) rm).sharedSamplers.getD i Sampler.dfl
      = rm.sharedSamplers.getD i Sampler.dfl := by
  induction ls generalizing rm with
  | nil => rfl
  | cons l0 rest ih =>
    rw [List.foldl_cons, ih (mergeSharedLayer bindings rm l0),
      mergeSharedLayer_getD_lt bindings rm l0 i hi]

theorem foldShared_passes (bindings : RenderBindings) (ls : List (Nat × Option Nat))
    (rm : RenderModel) :
    (ls.foldl (mergeSharedLayer bindings) rm).passes = rm.passes := by
  induction ls generalizing rm with
  | nil => rfl
  | cons l0 rest ih =>
    rw [List.foldl_cons, ih (mergeSharedLayer bindings rm l0), mergeSharedLayer_passes]

theorem mergeElevation_passes (bindings : RenderBindings) (elev : Option Nat)
    (rm : RenderModel) : (mergeElevation bindings elev rm).passes = rm.passes := by
  cases elev with
  | none => rfl
  | some t =>
    simp only [mergeElevation]
    split
    · rfl
    · rfl

theorem mergeNormal_passes (bindings : RenderBindings) (nrm : Option Nat)
    (rm : RenderModel) : (mergeNormal bindings nrm rm).passes = rm.passes := by
  cases nrm with
  | none => rfl
  | some t =>
    simp only [mergeNormal]
    split
    · rfl
    · rfl

theorem mergeColorLayers_shared (bindings : RenderBindings) (ls : List ColorLayerModel)
    (rm : RenderModel) :
    (mergeColorLayers bindings ls rm).sharedSamplers = rm.sharedSamplers := by
  unfold mergeColorLayers
  split
  · exact foldColor_shared bindings ls rm
  · rfl

theorem mergeElevation_shared_len (bindings : RenderBindings) (elev : Option Nat)
    (rm : RenderModel) :
    (mergeElevation bindings elev rm).sharedSamplers.length
      = rm.sharedSamplers.length := by
  cases elev with
  | none => rfl
  | some t =>
    simp only [mergeElevation]
    split
    · simp [setShared]
    · rfl

theorem mergeNormal_getD_elev (bindings : RenderBindings) (nrm : Option Nat)
    (rm : RenderModel) :
    (mergeNormal bindings nrm rm).sharedSamplers.getD ELEVATION Sampler.dfl
      = rm.sharedSamplers.getD ELEVATION Sampler.dfl := by
  cases nrm with
  | none => rfl
  | some t =>
    simp only [mergeNormal]
    split
    · simp only [setShared]
      exact getD_set_ne _ ELEVATION NORMAL _ Sampler.dfl (by decide)
    · rfl

/-- C2, counterexample: `merge` writes the color sampler of a layer's pass
with the matrix supplied by the model (`*model->getMatrix()`), not with an
identity matrix: merging a single image layer whose model matrix is
`scaleBias 0` leaves the pass's color sampler with matrix `scaleBias 0`,
which is not the identity. -/
theorem merge_identity_matrix_cex :
    ∃ pass,
      (mergeModel [⟨true, none⟩, ⟨false, none⟩]
          ⟨[ColorLayerModel.image 7 (some 1) (scaleBias 0)], none, none, []⟩
          ⟨[], []⟩).getPass 7 = some pass
      ∧ pass.samplers.getD COLOR Sampler.dfl
          ≠ ⟨some 1, Mat4.id⟩ := by
  refine ⟨freshImagePass [⟨true, none⟩, ⟨false, none⟩] 7 1 (scaleBias 0), ?_, ?_⟩
  · rfl
  · simp [freshImagePass, newPass, bindingActive, COLOR, COLOR_PARENT, Sampler.dfl,
      scaleBias, Mat4.id, Sampler.mk.injEq, Mat4.mk.injEq]

/-- C2 (amended): for every image color layer bearing a texture, `merge`
finds or creates the pass identified by the layer and writes its color
sampler with the texture and the matrix supplied by the model (identity
only when the model supplies identity); for every non-image color layer it
finds or creates the pass; the elevation and normal shared samplers
present in the model are written with identity matrices when their
bindings are active. Stated for models whose color layers carry pairwise
distinct layer UIDs and a render model whose passes have nonempty sampler
lists. -/
theorem merge_spec (bindings : RenderBindings) (model : TerrainTileModel) (rm : RenderModel)
    (hc : bindingActive bindings COLOR = true)
    (hdist : model.colorLayers.Pairwise (fun a b => a.uid ≠ b.uid))
    (hlen : ∀ p ∈ rm.passes, 0 < p.samplers.length)
    (helev : ELEVATION < rm.sharedSamplers.length)
    (hnorm : NORMAL < rm.sharedSamplers.length) :
    (∀ uid t mat, ColorLayerModel.image uid (some t) mat ∈ model.colorLayers →
      ∃ pass, (mergeModel bindings model rm).getPass uid = some pass
        ∧ pass.sourceUID = uid
        ∧ pass.samplers.getD COLOR Sampler.dfl = ⟨some t, mat⟩)
    ∧ (∀ uid, ColorLayerModel.other uid true ∈ model.colorLayers →
      ∃ pass, (mergeModel bindings model rm).getPass uid = some pass
        ∧ pass.sourceUID = uid)
    ∧ (∀ t, model.elevation = some t → bindingActive bindings ELEVATION = true →
      (mergeModel bindings model rm).sharedSamplers.getD ELEVATION Sampler.dfl
        = ⟨some t, Mat4.id⟩)
    ∧ (∀ t, model.normal = some t → bindingActive bindings NORMAL = true →
      (mergeModel bindings model rm).sharedSamplers.getD NORMAL Sampler.dfl
        = ⟨some t, Mat4.id⟩) := by
  have hb : 0 < bindings.length := by
    cases bindings with
    | nil => simp [bindingActive] at hc
    | cons b bs => simp
  have hrm1 : mergeColorLayers bindings model.colorLayers rm
      = model.colorLayers.foldl (mergeColorLayer bindings) rm := by
    unfold mergeColorLayers
    rw [if_pos hc]
  refine ⟨?_, ?_, ?_, ?_⟩
  · intro uid t mat hmem
    obtain ⟨pass, hf, h1, h2⟩ :=
      (foldColor_spec bindings model.colorLayers rm hb hlen hdist).1 uid t mat hmem
    refine ⟨pass, ?_, h1, h2⟩
    unfold RenderModel.getPass mergeModel
    rw [foldShared_passes, mergeNormal_passes, mergeElevation_passes, hrm1]
    exact hf
  · intro uid hmem
    obtain ⟨pass, hf, h1⟩ :=
      (foldColor_spec bindings model.colorLayers rm hb hlen hdist).2 uid hmem
    refine ⟨pass, ?_, h1⟩
    unfold RenderModel.getPass mergeModel
    rw [foldShared_passes, mergeNormal_passes, mergeElevation_passes, hrm1]
    exact hf
  · intro t hE hA
    unfold mergeModel
    rw [foldShared_getD_lt bindings model.sharedLayers _ ELEVATION (by decide)]
    rw [mergeNormal_getD_elev]
    rw [hE]
    simp only [mergeElevation]
    rw [if_pos hA]
    simp only [setShared]
    apply getD_set_self
    rw [mergeColorLayers_shared]
    exact helev
  · intro t hN hA
    unfold mergeModel
    rw [foldShared_getD_lt bindings model.sharedLayers _ NORMAL (by decide)]
    rw [hN]
    simp only [mergeNormal]
    rw [if_pos hA]
    simp only [setShared]
    apply getD_set_self
    rw [mergeElevation_shared_len, mergeColorLayers_shared]
    exact hnorm

/-- C2, witness: concrete merge of one image layer (uid 7, texture 3,
identity matrix) into an empty render model with four shared sampler
slots; the resulting pass holds (texture 3, identity). -/
theorem merge_spec_witness :
    ∃ pass,
      (mergeModel [⟨true, none⟩, ⟨false, none⟩, ⟨true, none⟩, ⟨true, none⟩]
          ⟨[ColorLayerModel.image 7 (some 3) Mat4.id], some 9, none, []⟩
          ⟨[], [Sampler.dfl, Sampler.dfl, Sampler.dfl, Sampler.dfl]⟩).getPass 7 = some pass
      ∧ pass.sourceUID = 7
      ∧ pass.samplers.getD COLOR Sampler.dfl = ⟨some 3, Mat4.id⟩ :=
  (merge_spec [⟨true, none⟩, ⟨false, none⟩, ⟨true, none⟩, ⟨true, none⟩]
    ⟨[ColorLayerModel.image 7 (some 3) Mat4.id], some 9, none, []⟩
    ⟨[], [Sampler.dfl, Sampler.dfl, Sampler.dfl, Sampler.dfl]⟩
    rfl
    (by simp)
    (by simp)
    (by decide)
    (by decide)).1 7 3 Mat4.id (List.mem_singleton.mpr rfl)

/-- The child-management state of a TileNode: its key, the children-ready
flag, and the keys of its current child tiles. -/
structure TileGroup where
  key : TileKey
  childrenReady : Bool
  childKeys : List TileKey
deriving DecidableEq, Repr

/-- `TileNode::createChildren` as invoked at its call sites (`cull` lines
423-439, `loadChildren`): under the node's lock, when the children are not
ready, construct the four children via `create(getKey().createChildKey(q))`
for quadrants 0..3, add each as a child, and mark children-ready;
otherwise do nothing (the guarded double-checked pattern). -/
def TileGroup.createChildrenLocked (t : TileGroup) : TileGroup :=
  if t.childrenReady = true then
    t
  else
    { t with
        childKeys :=
          t.childKeys ++ ([0, 1, 2, 3] : List (Fin 4)).map t.key.createChildKey
        childrenReady := true }

/-- `TileNode::removeSubTiles`: clear the children-ready flag and remove
all children as one operation. -/
def TileGroup.removeSubTiles (t : TileGroup) : TileGroup :=
  { t with childrenReady := false, childKeys := [] }

/-- The quadtree child-count invariant: no children (and not ready) or
exactly four children (and ready). -/
def TileGroup.wellFormed (t : TileGroup) : Prop :=
  (t.childKeys = [] ∧ t.childrenReady = false)
    ∨ (t.childKeys.length = 4 ∧ t.childrenReady = true)

/-- C5: the child count of a TileNode is always 0 or 4: `createChildren`
(as called, under the lock) is a no-op when children are already ready,
and otherwise installs exactly the four canonical child keys in quadrant
order 0..3 and marks children-ready; each canonical child key is
(level+1, 2·col+bit, 2·row+bit) and sits in its own quadrant;
`removeSubTiles` removes all children as one operation and clears the
ready flag; both operations preserve the invariant. -/
theorem quadtree_children_spec (t : TileGroup) (h : t.wellFormed) :
    t.createChildrenLocked.wellFormed
    ∧ (t.childrenReady = true → t.createChildrenLocked = t)
    ∧ (t.childrenReady = false →
        t.createChildrenLocked.childKeys
          = [t.key.createChildKey 0, t.key.createChildKey 1,
              t.key.createChildKey 2, t.key.createChildKey 3]
        ∧ t.createChildrenLocked.childrenReady = true)
    ∧ (∀ q : Fin 4, t.key.createChildKey q
        = ⟨t.key.lod + 1, 2 * t.key.x + (if q = 1 ∨ q = 3 then 1 else 0),
            2 * t.key.y + (if q = 2 ∨ q = 3 then 1 else 0)⟩)
    ∧ (∀ q : Fin 4, (t.key.createChildKey q).quadrant = q)
    ∧ t.removeSubTiles = { t with childrenReady := false, childKeys := [] }
    ∧ t.removeSubTiles.wellFormed := by
  have hkeys : t.childrenReady = false → t.childKeys = [] := by
    intro hr
    rcases h with ⟨h1, _⟩ | ⟨_, h2⟩
    · exact h1
    · rw [hr] at h2
      exact absurd h2 (by decide)
  refine ⟨?_, ?_, ?_, ?_, ?_, rfl, Or.inl ⟨rfl, rfl⟩⟩
  · unfold TileGroup.createChildrenLocked
    cases hr : t.childrenReady with
    | true =>
      rw [if_pos rfl]
      exact h
    | false =>
      rw [if_neg (by simp)]
      refine Or.inr ⟨?_, rfl⟩
      simp [hkeys hr]
  · intro hr
    unfold TileGroup.createChildrenLocked
    rw [if_pos hr]
  · intro hr
    unfold TileGroup.createChildrenLocked
    rw [if_neg (by simp [hr])]
    constructor
    · simp [hkeys hr]
    · rfl
  · intro q
    rfl
  · intro q
    fin_cases q <;> apply Fin.ext <;>
      simp [TileKey.createChildKey, TileKey.quadrant] <;> omega

/-- C5, witness: creating children for a root key (0,0,0) with no
children yields the four canonical child keys in quadrant order. -/
theorem quadtree_children_spec_witness :
    (TileGroup.createChildrenLocked ⟨⟨0, 0, 0⟩, false, []⟩).childKeys
      = [⟨1, 0, 0⟩, ⟨1, 1, 0⟩, ⟨1, 0, 1⟩, ⟨1, 1, 1⟩]
    ∧ (TileGroup.createChildrenLocked ⟨⟨0, 0, 0⟩, false, []⟩).childrenReady = true := by
  have h := (quadtree_children_spec ⟨⟨0, 0, 0⟩, false, []⟩ (Or.inl ⟨rfl, rfl⟩)).2.2.1 rfl
  refine ⟨?_, h.2⟩
  rw [h.1]
  decide

/-- The dormancy bookkeeping of a TileNode: last traversal frame and time,
and the configured minimum expiry frames and time. Frame counters are the
code's unsigned frame numbers (monotone non-decreasing, embedded as ℕ
with truncated subtraction for the elapsed count); the reference time,
a double in the code used only in subtraction and comparison, is embedded
as ℚ. -/
structure TileClock where
  lastTraversalFrame : Nat
  lastTraversalTime : ℚ
  minExpiryFrames : Nat
  minExpiryTime : ℚ
deriving DecidableEq

/-- `TileNode::isDormant(fs)` for a non-null frame stamp: dormant iff the
elapsed frames exceed `max(_minExpiryFrames, 3u)` and the elapsed
reference time exceeds `_minExpiryTime`. -/
def isDormant (st : TileClock) (frame : Nat) (time : ℚ) : Bool :=
  decide (max st.minExpiryFrames 3 < frame - st.lastTraversalFrame)
    && decide (st.minExpiryTime < time - st.lastTraversalTime)

/-- C6: a node is dormant iff the elapsed frames since its last traversal
exceed `max(configuredMinExpiryFrames, 3)` and the elapsed wall time
exceeds the configured minimum expiry time; a node last visited at frame
F is not dormant at frame F + minFrames - 1; and when the elapsed time is
at or below the time floor the node is never dormant, whatever the frame
gap. -/
theorem isDormant_spec (st : TileClock) (frame : Nat) (time : ℚ) :
    (isDormant st frame time = true ↔
      (max st.minExpiryFrames 3 < frame - st.lastTraversalFrame
        ∧ st.minExpiryTime < time - st.lastTraversalTime))
    ∧ (∀ t : ℚ,
        isDormant st (st.lastTraversalFrame + st.minExpiryFrames - 1) t = false)
    ∧ (time - st.lastTraversalTime ≤ st.minExpiryTime →
        isDormant st frame time = false) := by
  refine ⟨?_, ?_, ?_⟩
  · simp [isDormant]
  · intro t
    have hlt : ¬(max st.minExpiryFrames 3
        < st.lastTraversalFrame + st.minExpiryFrames - 1 - st.lastTraversalFrame) := by
      rw [Nat.max_lt]
      omega
    simp [isDormant, hlt]
  · intro h
    have hlt : ¬(st.minExpiryTime < time - st.lastTraversalTime) := not_lt.mpr h
    simp [isDormant, hlt]

/-- C6, witness: with a 100-unit time floor, a node visited at time 0 and
queried at time 50 is not dormant even after a 1000-frame gap. -/
theorem isDormant_spec_witness :
    isDormant ⟨10, 0, 5, 100⟩ 1000 50 = false :=
  (isDormant_spec ⟨10, 0, 5, 100⟩ 1000 50).2.2 (by norm_num)

/-- The inputs of `TileNode::load`: the key's LOD, the number of LODs in
the selection info, the high-resolution-first option, and the visibility
range of LOD 0 (`si.visParameters(0)._visibilityRange`). The float
arithmetic of the code (sums, differences and one division of exactly
represented inputs) is embedded over ℚ. -/
structure LoadParams where
  lod : Nat
  numLods : Nat
  highResolutionFirst : Bool
  visibilityRange : ℚ
deriving DecidableEq

/-- The LOD term of the load priority: the tile's LOD when
high-resolution-first is set, `numLods - lod` otherwise. -/
def lodPriority (p : LoadParams) : ℚ :=
  if p.highResolutionFirst = true then (p.lod : ℚ)
  else (p.numLods : ℚ) - (p.lod : ℚ)

/-- The priority computed by `TileNode::load`:
`lodPriority + (1 - distance / visibilityRange)`. -/
def loadPriority (p : LoadParams) (distance : ℚ) : ℚ :=
  lodPriority p + (1 - distance / p.visibilityRange)

/-- C7: the load priority equals lodPriority + (1 - distance /
visibilityRange), where lodPriority is the LOD when high-resolution-first
is enabled and numLods - LOD otherwise; at a fixed LOD the priority is
strictly decreasing in the distance (the strictly nearer tile gets the
strictly greater priority), for a positive visibility range. -/
theorem load_priority_spec (p : LoadParams) (d1 d2 : ℚ)
    (hv : 0 < p.visibilityRange) (hd : d1 < d2) :
    (∀ d : ℚ, loadPriority p d
        = (if p.highResolutionFirst = true then (p.lod : ℚ)
            else (p.numLods : ℚ) - (p.lod : ℚ)) + (1 - d / p.visibilityRange))
    ∧ loadPriority p d2 < loadPriority p d1 := by
  constructor
  · intro d
    rfl
  · unfold loadPriority
    have h2 : d1 / p.visibilityRange < d2 / p.visibilityRange := by
      gcongr
    linarith

/-- C7, witness: with numLods 5, LOD 2, high-resolution-first off and
visibility range 100, the tile at distance 20 has strictly lower priority
than the tile at distance 10. -/
theorem load_priority_spec_witness :
    loadPriority ⟨2, 5, false, 100⟩ 20 < loadPriority ⟨2, 5, false, 100⟩ 10 :=
  (load_priority_spec ⟨2, 5, false, 100⟩ 10 20 (by norm_num) (by norm_num)).2

/-- The inputs of one `TileNode::cull` visit: the horizon-visibility test
of the surface, the subdivision metric (`shouldSubDivide`), the dirty
flag, the progressive option, whether the camera is a viewpoint-inheriting
(decoupled) camera (`ABSOLUTE_RF_INHERIT_VIEWPOINT`), and the
children-ready flag. -/
structure CullInput where
  surfaceVisible : Bool
  childrenInRange : Bool
  dirty : Bool
  progressive : Bool
  inheritViewpoint : Bool
  childrenReady : Bool
deriving DecidableEq, Repr, Fintype

/-- The actions taken by one `TileNode::cull` visit. -/
structure CullDecision where
  createsChildren : Bool
  traversesChildren : Bool
  acceptsSurface : Bool
  submitsLoad : Bool
deriving DecidableEq, Repr

/-- `TileNode::cull`, decision by decision: bail out when the surface is
horizon-culled; suppress child creation in progressive mode while dirty;
suppress child creation and data loading for a viewpoint-inheriting
camera; when in range of children, create them if absent and allowed
(then loading must wait a frame), traverse them when ready, else accept
the surface; out of range, accept the surface; finally load when dirty
and allowed. -/
def cull (i : CullInput) : CullDecision :=
  if i.surfaceVisible = false then
    ⟨false, false, false, false⟩
  else
    let canCreateChildren0 := i.childrenInRange
    let canCreateChildren1 :=
      if i.dirty && i.progressive then false else canCreateChildren0
    let canCreateChildren :=
      if i.inheritViewpoint then false else canCreateChildren1
    let canLoadData := if i.inheritViewpoint then false else true
    if i.childrenInRange = true then
      let creates := !i.childrenReady && canCreateChildren
      let canLoadData2 := if creates then false else canLoadData
      if i.childrenReady || creates then
        ⟨creates, true, false, i.dirty && canLoadData2⟩
      else
        ⟨false, false, true, i.dirty && canLoadData2⟩
    else
      ⟨false, false, true, i.dirty && canLoadData⟩

/-- C9: a cull visit by a viewpoint-inheriting (decoupled, e.g.
shadow/reflection) camera never creates child tiles and never submits a
load request; it traverses children only when they already exist, and
when the surface is visible it renders either the existing children or
its own surface. -/
theorem cull_decoupled_spec (i : CullInput) (h : i.inheritViewpoint = true) :
    (cull i).createsChildren = false
    ∧ (cull i).submitsLoad = false
    ∧ ((cull i).traversesChildren = true → i.childrenReady = true)
    ∧ (i.surfaceVisible = true →
        ((cull i).traversesChildren = true ∨ (cull i).acceptsSurface = true)) := by
  revert h
  revert i
  decide

/-- C9, witness: a decoupled-camera visit of a dirty, in-range node with
no children creates nothing and loads nothing. -/
theorem cull_decoupled_spec_witness :
    (cull ⟨true, true, true, false, true, false⟩).createsChildren = false
    ∧ (cull ⟨true, true, true, false, true, false⟩).submitsLoad = false
    ∧ ((cull ⟨true, true, true, false, true, false⟩).traversesChildren = true →
        (⟨true, true, true, false, true, false⟩ : CullInput).childrenReady = true)
    ∧ ((⟨true, true, true, false, true, false⟩ : CullInput).surfaceVisible = true →
        ((cull ⟨true, true, true, false, true, false⟩).traversesChildren = true
          ∨ (cull ⟨true, true, true, false, true, false⟩).acceptsSurface = true)) :=
  cull_decoupled_spec ⟨true, true, true, false, true, false⟩ rfl

/-- Severity of a log message. -/
inductive LogSeverity where
  | debug
  | warning
deriving DecidableEq, Repr

/-- The observable outcome of `TileNode::create` as a function of whether
the pooled geometry for the key came back empty. -/
structure CreateOutcome where
  empty : Bool
  hasSurface : Bool
  hasLoadRequest : Bool
  registered : Bool
  notifiedAdded : Bool
  markedDirty : Bool
  log : Option LogSeverity
deriving DecidableEq, Repr

/-- `TileNode::create` outcome: when the pooled geometry is empty the node
is marked empty, a debug-level message is logged, and the function returns
before creating the surface drawable, the load request, the live-tile
registration, the dirty flag or the tile-added notification; the function
is total — empty construction raises no exception. -/
def createOutcome (geomEmpty : Bool) : CreateOutcome :=
  if geomEmpty = true then
    ⟨true, false, false, false, false, false, some LogSeverity.debug⟩
  else
    ⟨false, true, true, true, true, true, none⟩

/-- `TileNode::traverse` for a cull visitor: a node whose empty flag is
set is skipped entirely (`if (_empty == false)`), so it takes no cull
action at all. -/
def traverseCull (empty : Bool) (i : CullInput) : CullDecision :=
  if empty = true then
    ⟨false, false, false, false⟩
  else
    cull i

/-- C8: empty pooled geometry marks the node empty and stops creation
(no surface, no load request, no registration, no notification, not
dirtied), with a debug-level log only and no error; and for every cull
visit of an empty node, nothing is rendered, no children are created or
traversed, and no load is submitted. -/
theorem empty_tile_spec :
    (createOutcome true).empty = true
    ∧ (createOutcome true).hasSurface = false
    ∧ (createOutcome true).hasLoadRequest = false
    ∧ (createOutcome true).registered = false
    ∧ (createOutcome true).notifiedAdded = false
    ∧ (createOutcome true).log = some LogSeverity.debug
    ∧ ∀ i : CullInput, traverseCull true i = ⟨false, false, false, false⟩ := by
  refine ⟨rfl, rfl, rfl, rfl, rfl, rfl, ?_⟩
  intro i
  rfl

/-- The dirty/new-layer bookkeeping of a TileNode: the dirty flag, the
pending new-layer set, and the load request's layer filter. -/
structure DirtyState where
  dirty : Bool
  newLayers : List Nat
  filterLayers : List Nat
deriving DecidableEq, Repr

/-- `TileNode::setDirty(value)`: set the dirty flag; then, if the flag is
now false and new layers are pending, install the pending layers as the
load request's filter (after clearing it), clear the pending set and set
the flag back to true. -/
def setDirty (st : DirtyState) (value : Bool) : DirtyState :=
  let st1 : DirtyState := { st with dirty := value }
  if st1.dirty = false ∧ st1.newLayers ≠ [] then
    { st1 with filterLayers := st1.newLayers, newLayers := [], dirty := true }
  else
    st1

/-- C10: with a non-empty pending new-layer set, `setDirty false` does not
leave the node clean: it installs the pending layers as the load filter,
clears the pending set and sets the dirty flag back to true; with no
pending layers it simply clears the dirty flag. -/
theorem setDirty_pending_spec (st : DirtyState) :
    (st.newLayers ≠ [] →
      setDirty st false = ⟨true, [], st.newLayers⟩)
    ∧ (st.newLayers = [] → setDirty st false = { st with dirty := false })
    ∧ (st.newLayers ≠ [] → (setDirty st false).dirty = true) := by
  refine ⟨?_, ?_, ?_⟩ <;> intro h <;> simp [setDirty, h]

/-- C10, witness: a clean-setting call with pending layer 4 ends dirty,
with the filter holding layer 4 and the pending set empty. -/
theorem setDirty_pending_spec_witness :
    setDirty ⟨true, [4], []⟩ false = ⟨true, [], [4]⟩ :=
  (setDirty_pending_spec ⟨true, [4], []⟩).1 (by simp)
